import Mathlib

/-!
Verification of the `MyListings` panel (`src/components/my-listings.tsx`)
of the Balchhi lost-and-found frontend.

The component is embedded shallowly:
* `Listing` mirrors the component's `Listing` interface (the joined
  `category.name` becomes an optional string, the joined media rows become
  a list of URLs, the creation timestamp becomes a `Nat` so that the
  backend ordering is comparable).
* `Item` is a row of the backend `items` table: the listing fields plus
  the owning `user_id` that the component's queries filter on.
* `queryMyListings` models the read query
  (`.eq('user_id', ...).eq('status', ...).order('created_at', {ascending: false})`)
  as filter + stable merge sort + projection.
* `applyDelete` models the write query
  (`.delete().eq('id', listingId).eq('user_id', user?.id)`).
* `fetchMyListings` and `handleDelete` are the component's two effectful
  functions, written as state transformers that also emit the list of
  external effects (issued queries, alerts, page reload) so that claims
  about "no query is issued" are expressible.
* `render` is the component's four-way branch on
  loading / error / empty / populated.
-/

namespace Balchhi

/-- The optional `location` object of a listing: all three fields are
optional free text, mirroring
`location: { district?: string; province?: string; address?: string } | null`. -/
structure Location where
  district : Option String
  province : Option String
  address : Option String
deriving Repr, DecidableEq

/-- A listing as the component sees it (the `Listing` interface):
`category` is the joined `categories.name` (or `null`), `media` the list of
joined `item_media.url` values, `created_at` the creation timestamp. -/
structure Listing where
  id : String
  title : String
  type : String
  category : Option String
  location : Option Location
  created_at : Nat
  media : List String
  view_count : Nat
  status : String
deriving Repr, DecidableEq

/-- A row of the backend `items` table: the listing fields plus the owner's
`user_id`, which the component's read and delete queries filter on. -/
structure Item extends Listing where
  user_id : String
deriving Repr, DecidableEq

/-- The ambient authentication context (`useAuth()`): an optional user id
and whether a session is present. -/
structure AuthContext where
  user : Option String
  session : Bool

/-- The component-local UI state: the displayed row list, the loading flag
and the error message. -/
structure PanelState where
  listings : List Listing
  isLoading : Bool
  error : Option String
deriving Repr, DecidableEq

/-- The state at mount:
`useState<Listing[]>([])`, `useState(true)`, `useState<string | null>(null)`. -/
def initialState : PanelState :=
  { listings := [], isLoading := true, error := none }

/-- Observable external effects of the component: the read query, the
delete query, the blocking alert, and the whole-page reload of the retry
button (`window.location.reload()`). -/
inductive Effect where
  | readQuery (userId : String) (status : String)
  | deleteQuery (listingId : String) (userId : Option String)
  | alert (msg : String)
  | reloadPage
deriving Repr, DecidableEq

/-- Descending order on creation time, as requested by
`.order('created_at', { ascending: false })`. -/
def createdDesc (a b : Item) : Bool :=
  decide (b.created_at ≤ a.created_at)

/-- The read query issued by `fetchMyListings`: select the rows of `items`
with the given `user_id` and `status`, order them by `created_at`
descending, and project to the selected listing fields. -/
def queryMyListings (db : List Item) (userId : String) (status : String) :
    List Listing :=
  (((db.filter fun it => it.user_id == userId && it.status == status).mergeSort
      createdDesc).map fun it => it.toListing)

/-- The delete query issued by `handleDelete`: remove from `items` the rows
matching both `.eq('id', listingId)` and `.eq('user_id', userId)`; a
missing user id (`user?.id` on a signed-out user) matches no row. -/
def applyDelete (db : List Item) (listingId : String) (userId : Option String) :
    List Item :=
  db.filter fun it => !(it.id == listingId && some it.user_id == userId)

/-- Outcome of the awaited read request: the backend answered with data
(possibly `null`, which `data || []` turns into `[]`), the backend answered
with an error object, or the await threw. -/
inductive FetchResult where
  | success (data : Option (List Listing))
  | failure
  | thrown
deriving Repr, DecidableEq

/-- Outcome of the awaited delete request. -/
inductive DeleteResult where
  | success
  | failure
  | thrown
deriving Repr, DecidableEq

/-- The `fetchMyListings` effect run on mount and on dependency change,
as a function of the auth context, the `status` prop and the request's
outcome. Returns the new state and the emitted effects. Mirrors the
source: without `user` and `session` it only clears the loading flag and
issues nothing; otherwise it issues the read query, stores `data || []`
on success, and stores the fixed error string on a backend error or a
thrown exception (the `finally` clears the loading flag in every branch). -/
def fetchMyListings (auth : AuthContext) (status : String) (res : FetchResult)
    (s : PanelState) : PanelState × List Effect :=
  match auth.user, auth.session with
  | none, _ => ({ s with isLoading := false }, [])
  | some _, false => ({ s with isLoading := false }, [])
  | some uid, true =>
    match res with
    | .success data =>
        ({ listings := data.getD [], isLoading := false, error := none },
         [Effect.readQuery uid status])
    | .failure =>
        ({ s with error := some "Failed to load listings", isLoading := false },
         [Effect.readQuery uid status])
    | .thrown =>
        ({ s with error := some "Failed to load listings", isLoading := false },
         [Effect.readQuery uid status])

/-- The `handleDelete` handler for a row, as a function of the current
user id (`user?.id`), the outcome of the confirmation prompt and of the
delete request. Mirrors the source: a declined confirmation returns
immediately; otherwise the delete query (scoped by listing id and user id)
is issued, and on success the row list is filtered by
`l.id !== listingId`, while a backend error or a thrown exception alerts
and leaves the state unchanged. -/
def handleDelete (userId : Option String) (confirmed : Bool)
    (res : DeleteResult) (listingId : String) (s : PanelState) :
    PanelState × List Effect :=
  if !confirmed then (s, [])
  else
    match res with
    | .success =>
        ({ s with listings := s.listings.filter fun l => l.id != listingId },
         [Effect.deleteQuery listingId userId])
    | .failure =>
        (s, [Effect.deleteQuery listingId userId,
             Effect.alert "Failed to delete listing"])
    | .thrown =>
        (s, [Effect.deleteQuery listingId userId,
             Effect.alert "Failed to delete listing"])

/-- Source function getLocationString: push the truthy fields (defined and non-empty, in
the order address, district, province), join with `', '`, and fall back to
the fixed string when nothing was pushed or the location is `null`. -/
def getLocationString (location : Option Location) : String :=
  match location with
  | none => "Unknown location"
  | some loc =>
    let parts : List String := []
    let parts := match loc.address with
                 | some a => if a == "" then parts else parts ++ [a]
                 | none => parts
    let parts := match loc.district with
                 | some d => if d == "" then parts else parts ++ [d]
                 | none => parts
    let parts := match loc.province with
                 | some p => if p == "" then parts else parts ++ [p]
                 | none => parts
    if parts.length > 0 then String.intercalate ", " parts
    else "Unknown location"

/-- The four render branches of the component, in source order: the loading
spinner, the error card (whose retry button performs the recorded effect),
the empty-state card for the current status, and the list of cards. -/
inductive View where
  | loading
  | errorView (msg : String) (retry : Effect)
  | emptyState (status : String)
  | cards (rows : List Listing)
deriving Repr, DecidableEq

/-- The component's return value as a function of its state: loading wins,
then the error branch (retry = full page reload), then the empty state,
then one card per row in list order. -/
def render (status : String) (s : PanelState) : View :=
  if s.isLoading then View.loading
  else
    match s.error with
    | some msg => View.errorView msg Effect.reloadPage
    | none =>
        if s.listings.isEmpty then View.emptyState status
        else View.cards s.listings

/-- The rows rendered as cards by a view (the other branches render no
card). -/
def renderedCards : View → List Listing
  | View.cards rows => rows
  | _ => []

/-- How a successful/failed/declined delete changes the backend table:
only a confirmed, successful delete removes rows. -/
def dbAfterDelete (db : List Item) (userId : Option String) (confirmed : Bool)
    (res : DeleteResult) (listingId : String) : List Item :=
  if confirmed then
    match res with
    | .success => applyDelete db listingId userId
    | _ => db
  else db

/-- Reachable (backend table, panel state) pairs of a mounted panel for a
fixed signed-in owner `uid` and status prop, starting from table `db₀` and
the mount state: any number of fetches (whose successful data is exactly
the read query's answer on the current table) and delete attempts. -/
inductive Reachable (db₀ : List Item) (uid : String) (status : String) :
    List Item → PanelState → Prop where
  | init : Reachable db₀ uid status db₀ initialState
  | fetchOk {db : List Item} {s : PanelState} :
      Reachable db₀ uid status db s →
      Reachable db₀ uid status db
        (fetchMyListings ⟨some uid, true⟩ status
          (FetchResult.success (some (queryMyListings db uid status))) s).1
  | fetchFail {db : List Item} {s : PanelState} (res : FetchResult)
      (h : res = FetchResult.failure ∨ res = FetchResult.thrown) :
      Reachable db₀ uid status db s →
      Reachable db₀ uid status db
        (fetchMyListings ⟨some uid, true⟩ status res s).1
  | deleteStep {db : List Item} {s : PanelState} (confirmed : Bool)
      (res : DeleteResult) (lid : String) :
      Reachable db₀ uid status db s →
      Reachable db₀ uid status
        (dbAfterDelete db (some uid) confirmed res lid)
        (handleDelete (some uid) confirmed res lid s).1

/-- The display invariant: every displayed row is among the rows the
owner-and-status-scoped read query returns on the current table, and the
displayed list is ordered by creation time descending. -/
def panelInv (db : List Item) (uid : String) (status : String)
    (s : PanelState) : Prop :=
  (∀ l ∈ s.listings, l ∈ queryMyListings db uid status) ∧
  s.listings.Pairwise fun a b => b.created_at ≤ a.created_at

/-- Membership in the read query's answer: exactly the projections of the
table rows owned by `userId` with the requested status. -/
theorem mem_queryMyListings {db : List Item} {userId status : String}
    {l : Listing} :
    l ∈ queryMyListings db userId status ↔
      ∃ it, it ∈ db ∧ it.user_id = userId ∧ it.status = status ∧
        it.toListing = l := by
  simp only [queryMyListings, List.mem_map, List.mem_mergeSort,
    List.mem_filter, Bool.and_eq_true, beq_iff_eq]
  constructor
  · rintro ⟨it, ⟨⟨hdb, hu, hs⟩, hl⟩⟩
    exact ⟨it, hdb, hu, hs, hl⟩
  · rintro ⟨it, hdb, hu, hs, hl⟩
    exact ⟨it, ⟨⟨hdb, hu, hs⟩, hl⟩⟩

/-- The read query's answer is ordered by creation time descending. -/
theorem queryMyListings_pairwise (db : List Item) (userId status : String) :
    (queryMyListings db userId status).Pairwise
      fun a b => b.created_at ≤ a.created_at := by
  have hsorted :
      ((db.filter fun it => it.user_id == userId && it.status == status).mergeSort
          createdDesc).Pairwise fun a b => createdDesc a b = true := by
    refine List.sorted_mergeSort ?_ ?_ _
    · intro a b c hab hbc
      simp only [createdDesc, decide_eq_true_eq] at *
      exact le_trans hbc hab
    · intro a b
      simp only [createdDesc, Bool.or_eq_true, decide_eq_true_eq]
      exact Nat.le_total b.created_at a.created_at
  refine List.Pairwise.map _ ?_ hsorted
  intro a b hab
  simpa [createdDesc] using hab

/-- The read query's answer is a permutation of the projected
owner-and-status filter of the table. -/
theorem queryMyListings_perm (db : List Item) (userId status : String) :
    (queryMyListings db userId status).Perm
      ((db.filter fun it => it.user_id == userId && it.status == status).map
        fun it => it.toListing) :=
  List.Perm.map _ (List.mergeSort_perm _ _)

/-- A queried row whose id differs from the deleted id is still returned
by the query after the delete is applied to the table. -/
theorem mem_queryMyListings_applyDelete {db : List Item}
    {userId status lid : String} {u : Option String} {l : Listing}
    (hmem : l ∈ queryMyListings db userId status) (hne : l.id ≠ lid) :
    l ∈ queryMyListings (applyDelete db lid u) userId status := by
  rcases mem_queryMyListings.1 hmem with ⟨it, hdb, hu, hs, hl⟩
  refine mem_queryMyListings.2 ⟨it, ?_, hu, hs, hl⟩
  have hid : it.id = l.id := by rw [← hl]
  refine List.mem_filter.2 ⟨hdb, ?_⟩
  simp only [Bool.not_eq_eq_eq_not, Bool.not_true, Bool.and_eq_false_iff,
    beq_eq_false_iff_ne, ne_eq]
  left
  rw [hid]
  exact hne

/-- C1: in every reachable state of the listings panel the displayed row
list is a subset of the rows returned by the owner-and-status-scoped read
query on the current table and is ordered by creation time descending; the
reachability relation closes the mount state under the fetch updates
(success and failure) and under delete attempts, so in particular the
fetch-success update and the local removal after a successful delete
preserve the invariant. -/
theorem reachable_panelInv {db₀ : List Item} {uid status : String}
    {db : List Item} {s : PanelState}
    (h : Reachable db₀ uid status db s) : panelInv db uid status s := by
  induction h with
  | init =>
      exact ⟨by intro l hl; simp [initialState] at hl, by simp [initialState]⟩
  | fetchOk hr ih =>
      constructor
      · intro l hl
        simpa [fetchMyListings] using hl
      · simpa [fetchMyListings] using queryMyListings_pairwise _ uid status
  | fetchFail res hres hr ih =>
      rcases hres with h1 | h1 <;> subst h1 <;>
        simpa [fetchMyListings] using ih
  | deleteStep confirmed res lid hr ih =>
      cases confirmed with
      | false => simpa [handleDelete, dbAfterDelete] using ih
      | true =>
          cases res with
          | success =>
              refine ⟨?_, ?_⟩
              · intro l hl
                simp only [handleDelete, Bool.not_true, Bool.false_eq_true,
                  if_false, List.mem_filter, bne_iff_ne, ne_eq] at hl
                rcases hl with ⟨hl, hne⟩
                simp only [dbAfterDelete]
                exact mem_queryMyListings_applyDelete (ih.1 l hl) hne
              · simp only [handleDelete, Bool.not_true, Bool.false_eq_true,
                  if_false]
                exact List.Pairwise.sublist (List.filter_sublist _) ih.2
          | failure => simpa [handleDelete, dbAfterDelete] using ih
          | thrown => simpa [handleDelete, dbAfterDelete] using ih

/-- A concrete table for witnesses: two active listings of owner `u1`
(created at times 2 and 1) and one of owner `u2`. -/
def exItem1 : Item :=
  { id := "a", title := "t1", type := "lost", category := none,
    location := none, created_at := 2, media := [], view_count := 0,
    status := "active", user_id := "u1" }

def exItem2 : Item :=
  { id := "b", title := "t2", type := "found", category := some "bags",
    location := none, created_at := 1, media := ["m"], view_count := 3,
    status := "active", user_id := "u1" }

def exItem3 : Item :=
  { id := "c", title := "t3", type := "lost", category := none,
    location := none, created_at := 5, media := [], view_count := 0,
    status := "active", user_id := "u2" }

def exDb : List Item := [exItem2, exItem1, exItem3]

/-- Witness for C1: the invariant holds at the concrete state reached by a
mount, a successful fetch and a confirmed successful delete of row `a`. -/
theorem reachable_panelInv_witness :
    panelInv (dbAfterDelete exDb (some "u1") true DeleteResult.success "a")
      "u1" "active"
      (handleDelete (some "u1") true DeleteResult.success "a"
        (fetchMyListings ⟨some "u1", true⟩ "active"
          (FetchResult.success (some (queryMyListings exDb "u1" "active")))
          initialState).1).1 :=
  reachable_panelInv
    (Reachable.deleteStep true DeleteResult.success "a"
      (Reachable.fetchOk Reachable.init))

/-- The location fields that the spec calls present, in the spec's order
address, district, province: defined and (per the code's truthiness test)
non-empty. -/
def specPresentFields (loc : Location) : List String :=
  ([loc.address, loc.district, loc.province].filterMap id).filter
    fun f => !(f == "")

/-- The spec's description of the location display: the comma-separated
join of exactly the present fields, or the fixed fallback string when the
location is absent or no field is present. -/
def specLocationString (location : Option Location) : String :=
  match location with
  | none => "Unknown location"
  | some loc =>
      if (specPresentFields loc).isEmpty then "Unknown location"
      else String.intercalate ", " (specPresentFields loc)

/-- C2: `getLocationString` returns the comma-separated join of exactly
the present fields among address, district, province in that order, with
the fixed fallback for an absent location or no present field; in
particular an address-only location formats as the address, a
district-and-province location as `district, province`, and the empty
location as `Unknown location`. -/
theorem getLocationString_correct :
    (∀ location : Option Location,
        getLocationString location = specLocationString location) ∧
    getLocationString (some ⟨none, none, some "address"⟩) = "address" ∧
    getLocationString (some ⟨some "district", some "province", none⟩) =
      "district, province" ∧
    getLocationString (some ⟨none, none, none⟩) = "Unknown location" ∧
    getLocationString none = "Unknown location" := by
  refine ⟨?_, by decide, by decide, by decide, rfl⟩
  rintro (_ | ⟨d, p, a⟩)
  · rfl
  · rcases a with _ | a <;> rcases d with _ | d <;> rcases p with _ | p <;>
      simp only [getLocationString, specLocationString, specPresentFields,
        List.filterMap_cons, List.filterMap_nil, List.filter_cons,
        List.filter_nil] <;>
      split_ifs <;> simp_all

/-- C10: a location field holding the empty string is treated as absent by
`getLocationString` — replacing an empty-string field by an absent one
never changes the result — and a non-null location whose three fields are
all empty strings formats as the fallback string. -/
theorem getLocationString_empty_fields :
    (∀ loc : Location,
        getLocationString (some { loc with address := some "" }) =
          getLocationString (some { loc with address := none })) ∧
    (∀ loc : Location,
        getLocationString (some { loc with district := some "" }) =
          getLocationString (some { loc with district := none })) ∧
    (∀ loc : Location,
        getLocationString (some { loc with province := some "" }) =
          getLocationString (some { loc with province := none })) ∧
    getLocationString (some ⟨some "", some "", some ""⟩) =
      "Unknown location" := by
  refine ⟨?_, ?_, ?_, by decide⟩ <;>
    rintro ⟨d, p, a⟩ <;> simp [getLocationString]

/-- C3: without an authenticated identity (no user or no session) the
mounted panel ends non-loading with an empty row list and no error, and no
effect — in particular no read query — is issued. -/
theorem fetch_no_identity (auth : AuthContext) (status : String)
    (res : FetchResult)
    (h : auth.user = none ∨ auth.session = false) :
    (fetchMyListings auth status res initialState).1 =
      { listings := [], isLoading := false, error := none } ∧
    (fetchMyListings auth status res initialState).2 = [] := by
  rcases auth with ⟨u, sess⟩
  rcases h with h | h
  · subst h
    exact ⟨rfl, rfl⟩
  · subst h
    rcases u with _ | u
    · exact ⟨rfl, rfl⟩
    · exact ⟨rfl, rfl⟩

/-- Witness for C3 at a concrete unauthenticated context. -/
theorem fetch_no_identity_witness :
    (fetchMyListings ⟨none, false⟩ "active" FetchResult.failure
        initialState).1 =
      { listings := [], isLoading := false, error := none } ∧
    (fetchMyListings ⟨none, false⟩ "active" FetchResult.failure
        initialState).2 = [] :=
  fetch_no_identity ⟨none, false⟩ "active" FetchResult.failure (Or.inl rfl)

/-- C7: a declined confirmation makes `handleDelete` a no-op: the whole
panel state is unchanged and no effect — in particular no delete query —
is issued. -/
theorem handleDelete_declined (userId : Option String) (res : DeleteResult)
    (listingId : String) (s : PanelState) :
    handleDelete userId false res listingId s = (s, []) :=
  rfl

/-- C4: a confirmed delete whose request succeeds removes exactly the
targeted row (given that displayed ids are distinct, as they are for rows
of the `items` table keyed by id): the new list is the old one with that
single row dropped, in the same order; the loading flag and the error are
untouched; and the only issued effect is the delete query — no re-fetch. -/
theorem handleDelete_success_removes_row (userId : Option String)
    (lid : String) (s : PanelState) (row : Listing)
    (hmem : row ∈ s.listings) (hid : row.id = lid)
    (hnodup : (s.listings.map fun l => l.id).Nodup) :
    (∃ pre post, s.listings = pre ++ row :: post ∧
        (handleDelete userId true DeleteResult.success lid s).1.listings =
          pre ++ post) ∧
    (handleDelete userId true DeleteResult.success lid s).1.isLoading =
      s.isLoading ∧
    (handleDelete userId true DeleteResult.success lid s).1.error = s.error ∧
    (handleDelete userId true DeleteResult.success lid s).2 =
      [Effect.deleteQuery lid userId] := by
  refine ⟨?_, rfl, rfl, rfl⟩
  rcases List.append_of_mem hmem with ⟨pre, post, hsplit⟩
  refine ⟨pre, post, hsplit, ?_⟩
  have hids : ((pre.map fun l => l.id) ++ row.id ::
      (post.map fun l => l.id)).Nodup := by
    simpa [hsplit] using hnodup
  rw [List.nodup_append] at hids
  have hrowpre : row.id ∉ pre.map fun l => l.id := fun hin =>
    hids.2.2 hin (List.mem_cons_self _ _)
  have hrowpost : row.id ∉ post.map fun l => l.id :=
    (List.nodup_cons.1 hids.2.1).1
  have hpre : ∀ x ∈ pre, x.id ≠ lid := by
    intro x hx hxid
    exact hrowpre (by rw [hid, ← hxid]; exact List.mem_map_of_mem _ hx)
  have hpost : ∀ x ∈ post, x.id ≠ lid := by
    intro x hx hxid
    exact hrowpost (by rw [hid, ← hxid]; exact List.mem_map_of_mem _ hx)
  have hstep :
      (handleDelete userId true DeleteResult.success lid s).1.listings =
        s.listings.filter fun l => l.id != lid := rfl
  have h1 : pre.filter (fun l => l.id != lid) = pre :=
    List.filter_eq_self.2 fun a ha => by simpa using hpre a ha
  have h2 : post.filter (fun l => l.id != lid) = post :=
    List.filter_eq_self.2 fun a ha => by simpa using hpost a ha
  have hrow : (row.id != lid) = false := by simp [hid]
  rw [hstep, hsplit, List.filter_append, List.filter_cons, hrow]
  simp only [Bool.false_eq_true, if_false]
  rw [h1, h2]

/-- Witness for C4: deleting row `b` from a concrete two-row list. -/
theorem handleDelete_success_removes_row_witness :
    (∃ pre post,
        [exItem1.toListing, exItem2.toListing] = pre ++
          exItem2.toListing :: post ∧
        (handleDelete (some "u1") true DeleteResult.success "b"
            { listings := [exItem1.toListing, exItem2.toListing],
              isLoading := false, error := none }).1.listings =
          pre ++ post) ∧
    (handleDelete (some "u1") true DeleteResult.success "b"
        { listings := [exItem1.toListing, exItem2.toListing],
          isLoading := false, error := none }).1.isLoading = false ∧
    (handleDelete (some "u1") true DeleteResult.success "b"
        { listings := [exItem1.toListing, exItem2.toListing],
          isLoading := false, error := none }).1.error = none ∧
    (handleDelete (some "u1") true DeleteResult.success "b"
        { listings := [exItem1.toListing, exItem2.toListing],
          isLoading := false, error := none }).2 =
      [Effect.deleteQuery "b" (some "u1")] :=
  handleDelete_success_removes_row (some "u1") "b"
    { listings := [exItem1.toListing, exItem2.toListing],
      isLoading := false, error := none }
    exItem2.toListing (by simp) (by decide) (by decide)

/-- C5: a confirmed delete whose request fails — backend error object or
thrown exception — leaves the whole panel state (in particular the
displayed row list) unchanged and shows the blocking alert. -/
theorem handleDelete_failure_atomic (userId : Option String) (lid : String)
    (s : PanelState) (res : DeleteResult)
    (h : res = DeleteResult.failure ∨ res = DeleteResult.thrown) :
    (handleDelete userId true res lid s).1 = s ∧
    Effect.alert "Failed to delete listing" ∈
      (handleDelete userId true res lid s).2 := by
  rcases h with h | h <;> subst h <;> exact ⟨rfl, by simp [handleDelete]⟩

/-- Witness for C5 at a concrete failing delete. -/
theorem handleDelete_failure_atomic_witness :
    (handleDelete (some "u1") true DeleteResult.failure "a"
        initialState).1 = initialState ∧
    Effect.alert "Failed to delete listing" ∈
      (handleDelete (some "u1") true DeleteResult.failure "a"
        initialState).2 :=
  handleDelete_failure_atomic (some "u1") "a" initialState
    DeleteResult.failure (Or.inl rfl)

/-- C6: every delete query the handler issues is scoped by both the target
listing id and the current owner's id (any other emitted effect is the
failure alert), and applying such a scoped delete to the table never
removes a row belonging to another owner. -/
theorem delete_scoped_by_owner (uid lid : String) (confirmed : Bool)
    (res : DeleteResult) (s : PanelState) (db : List Item) (it : Item)
    (hit : it ∈ db) (howner : it.user_id ≠ uid) :
    (∀ e ∈ (handleDelete (some uid) confirmed res lid s).2,
        e = Effect.deleteQuery lid (some uid) ∨
        e = Effect.alert "Failed to delete listing") ∧
    it ∈ applyDelete db lid (some uid) := by
  constructor
  · cases confirmed <;> cases res <;> simp [handleDelete]
  · refine List.mem_filter.2 ⟨hit, ?_⟩
    simp [howner]

/-- Witness for C6: the other owner's row `c` survives a delete of `a`
scoped to owner `u1`. -/
theorem delete_scoped_by_owner_witness :
    (∀ e ∈ (handleDelete (some "u1") true DeleteResult.success "a"
        initialState).2,
        e = Effect.deleteQuery "a" (some "u1") ∨
        e = Effect.alert "Failed to delete listing") ∧
    exItem3 ∈ applyDelete exDb "a" (some "u1") :=
  delete_scoped_by_owner "u1" "a" true DeleteResult.success initialState
    exDb exItem3 (by decide) (by decide)

/-- C8: the read query returns exactly the listings owned by the identity
with the matching status (a permutation of the projected filter of the
table), ordered by creation time descending, and after a successful fetch
the rendered cards are exactly the query's rows in that order (so N rows
yield N cards). -/
theorem query_scope_order_render (db : List Item) (uid status : String) :
    (∀ l : Listing, l ∈ queryMyListings db uid status ↔
        ∃ it, it ∈ db ∧ it.user_id = uid ∧ it.status = status ∧
          it.toListing = l) ∧
    (queryMyListings db uid status).Perm
      ((db.filter fun it => it.user_id == uid && it.status == status).map
        fun it => it.toListing) ∧
    (queryMyListings db uid status).Pairwise
      (fun a b => b.created_at ≤ a.created_at) ∧
    renderedCards (render status
        (fetchMyListings ⟨some uid, true⟩ status
          (FetchResult.success (some (queryMyListings db uid status)))
          initialState).1) = queryMyListings db uid status := by
  refine ⟨fun l => mem_queryMyListings, queryMyListings_perm db uid status,
    queryMyListings_pairwise db uid status, ?_⟩
  simp only [fetchMyListings, Option.getD]
  by_cases h : (queryMyListings db uid status).isEmpty
  · simp [render, renderedCards, h, List.isEmpty_iff.1 h]
  · simp [render, renderedCards, h]

/-- C9: a failing read query — backend error object or thrown exception —
makes the panel render the error branch with the fixed message and a
retry control whose action reloads the whole page. -/
theorem fetch_failure_renders_error (uid status : String) (s : PanelState)
    (res : FetchResult)
    (h : res = FetchResult.failure ∨ res = FetchResult.thrown) :
    render status (fetchMyListings ⟨some uid, true⟩ status res s).1 =
      View.errorView "Failed to load listings" Effect.reloadPage := by
  rcases h with h | h <;> subst h <;> simp [fetchMyListings, render]

/-- Witness for C9 at a concrete failing fetch. -/
theorem fetch_failure_renders_error_witness :
    render "active"
        (fetchMyListings ⟨some "u1", true⟩ "active" FetchResult.thrown
          initialState).1 =
      View.errorView "Failed to load listings" Effect.reloadPage :=
  fetch_failure_renders_error "u1" "active" initialState
    FetchResult.thrown (Or.inr rfl)

end Balchhi
